import Mathlib

/-!
Shallow embedding of the `quark` Snowflake-style identifier generator
(`src/index.ts`, class `Quark`), together with theorems about its
configuration validation, identifier generation and extraction.

Modelling conventions:
* JS `bigint` values are `Int`; JS `number` values that the code treats as
  integers are `Int` (the bit widths land in `Nat` after the `Math.max(_, 0)`
  clamp the constructor applies to them).
* JS BigInt `a << n` for the non-negative shift amounts used by the code is
  `a * 2 ^ n`; `a >> n` is floor division, which for the positive divisor
  `2 ^ n` is `Int` division; `a & ((1n << k) - 1n)` is two's-complement
  masking to the low `k` bits, which is the Euclidean remainder `a % 2 ^ k`
  (always in `[0, 2 ^ k)`); `a | b` is `Int.lor`.
* The time source (`Math.round(Date.now() + this.timeDifference)`) is an
  explicit integer argument `now` of `generate`; the network time
  synchronization subsystem only feeds that collaborator and never touches
  the codec fields, so it is out of scope here.
-/

/-- Bit allocation for machineId and sequence (TS type `Allocations`).
After construction both widths are non-negative, hence natural numbers. -/
structure Allocations where
  machineId : Nat
  sequence : Nat
deriving DecidableEq

/-- JS BigInt left shift `a << n` by a non-negative shift amount. -/
def shlB (a : Int) (n : Nat) : Int := a * 2 ^ n

/-- JS BigInt arithmetic right shift `a >> n` by a non-negative shift
amount: floor division by `2 ^ n` (Euclidean division coincides with floor
division for a positive divisor). -/
def shrB (a : Int) (n : Nat) : Int := a / 2 ^ n

/-- `bigIntMax(...args)` from the source, at its two-argument call sites. -/
def bigIntMax (a b : Int) : Int := max a b

/-- `extractNumRange(num, start, end) = (num & ((1n << end) - 1n)) >> start`.
JS BigInt `&` is two's-complement, so masking with `2 ^ end - 1` is exactly
the Euclidean remainder modulo `2 ^ end`, landing in `[0, 2 ^ end)`. -/
def extractNumRange (num : Int) (start stop : Nat) : Int :=
  shrB (num % 2 ^ stop) start

/-- The `Quark` class state: the immutable configuration (`machineId`,
`epoch`, `allocations`) plus the mutable generator state (`lastTimestamp`,
`sequence`). -/
structure Quark where
  machineId : Int
  lastTimestamp : Int
  sequence : Int
  epoch : Int
  allocations : Allocations
deriving DecidableEq

/-- TS `Partial<Allocations>` as passed in `QuarkOptions.customAllocation`. -/
structure CustomAllocation where
  machineId : Option Int := none
  sequence : Option Int := none
deriving DecidableEq

/-- TS `QuarkOptions` (the core fields; `timeSynchronization` only
configures the external NTP collaborator). -/
structure QuarkOptions where
  machineId : Int
  epoch : Option Int := none
  customAllocation : Option CustomAllocation := none
  throwErr : Bool := false
deriving DecidableEq

/-- The two configuration errors the core constructor can throw. -/
inductive QuarkError where
  | negativeEpoch
  | bitBudgetExceeded
deriving DecidableEq

deriving instance DecidableEq for Except

/-- `Math.max(options.customAllocation?.machineId ?? 10, 0)` from the
constructor (the `isNaN` guard is vacuous for integer inputs); `Int.toNat`
of the already-clamped non-negative value lands the width in `Nat`. -/
def effectiveMachineIdBits (o : QuarkOptions) : Nat :=
  (max ((o.customAllocation.bind CustomAllocation.machineId).getD 10) 0).toNat

/-- `Math.max(options.customAllocation?.sequence ?? 12, 0)` from the
constructor, as a natural number. -/
def effectiveSequenceBits (o : QuarkOptions) : Nat :=
  (max ((o.customAllocation.bind CustomAllocation.sequence).getD 12) 0).toNat

/-- The `Quark` constructor (options-object overload), core part.  The
source stores `options.machineId` without clamping, initializes
`lastTimestamp = -1n` and `sequence = 0n`, heals or throws on a negative
epoch, clamps each requested width to `≥ 0`, and heals (to the defaults
`(10, 12)`) or throws when the widths sum to more than 22.  A thrown
`Error` is an `Except.error`; no partial codec exists in that case. -/
def mkQuark (o : QuarkOptions) : Except QuarkError Quark :=
  let epoch0 : Int := o.epoch.getD 0
  let rest : Int → Except QuarkError Quark := fun epoch =>
    let mBits := effectiveMachineIdBits o
    let sBits := effectiveSequenceBits o
    if mBits + sBits > 22 then
      if o.throwErr then Except.error QuarkError.bitBudgetExceeded
      else Except.ok ⟨o.machineId, -1, 0, epoch, ⟨10, 12⟩⟩
    else Except.ok ⟨o.machineId, -1, 0, epoch, ⟨mBits, sBits⟩⟩
  if epoch0 < 0 then
    if o.throwErr then Except.error QuarkError.negativeEpoch
    else rest 0
  else rest epoch0

namespace Quark

/-- `generate()`.  The adjusted current time is the explicit argument
`now`; the method's mutation of `lastTimestamp`/`sequence` is returned as
the updated state, and the first component is the returned identifier. -/
def generate (self : Quark) (now : Int) : Int × Quark :=
  let timestamp := bigIntMax (now - self.epoch) 1
  let sequence :=
    if timestamp ≤ self.lastTimestamp then
      extractNumRange (self.sequence + 1) 0 self.allocations.sequence
    else 0
  let timestamp :=
    if sequence = 0 then bigIntMax timestamp (self.lastTimestamp + 1) else timestamp
  let quark :=
    Int.lor
      (Int.lor (shlB timestamp 22)
        (shlB (extractNumRange self.machineId 0 self.allocations.machineId)
          self.allocations.sequence))
      sequence
  (quark, { self with lastTimestamp := timestamp, sequence := sequence })

/-- `extractTimestamp(quark) = Number((quark >> 22n) + this.epoch)`. -/
def extractTimestamp (self : Quark) (quark : Int) : Int :=
  shrB quark 22 + self.epoch

/-- `extractDate` returns `new Date(ms)` where `ms = extractTimestamp(quark)`;
the `Date` is modelled by its millisecond value `ms`. -/
def extractDate (self : Quark) (quark : Int) : Int :=
  extractTimestamp self quark

/-- `extractMachineId(quark) = extractNumRange(quark, sequenceBits,
sequenceBits + machineIdBits)`. -/
def extractMachineId (self : Quark) (quark : Int) : Int :=
  extractNumRange quark self.allocations.sequence
    (self.allocations.sequence + self.allocations.machineId)

/-- `extractSequence(quark) = extractNumRange(quark, 0, sequenceBits)`. -/
def extractSequence (self : Quark) (quark : Int) : Int :=
  extractNumRange quark 0 self.allocations.sequence

/-- The record returned by `extract`. -/
structure ExtractResult where
  timestamp : Int
  machineId : Int
  sequence : Int
deriving DecidableEq

/-- `extract(quark)`: the three projections bundled. -/
def extract (self : Quark) (quark : Int) : ExtractResult :=
  ⟨extractTimestamp self quark, extractMachineId self quark,
    extractSequence self quark⟩

/-- Run `generate` once per entry of `nows` (the time-source reading seen
by each call), collecting the returned identifiers in order. -/
def generateSeq (self : Quark) : List Int → List Int × Quark
  | [] => ([], self)
  | now :: rest =>
    let r := generate self now
    let rr := generateSeq r.2 rest
    (r.1 :: rr.1, rr.2)

/-- The codec state after `n` calls of `generate`, all of which read the
same frozen time `now`. -/
def generateIter (self : Quark) (now : Int) : Nat → Quark
  | 0 => self
  | n + 1 => (generate (generateIter self now n) now).2

/-- Decidable record of the hypothesis under which generation is monotone:
before every call of the run, that call's `relativeTime = max(now - epoch, 1)`
is at least the codec's current `lastTimestamp`, i.e. any clock stall or
regression has been absorbed by sequence-driven timestamp advancement. -/
def absorbedRun (self : Quark) : List Int → Bool
  | [] => true
  | now :: rest =>
    decide (self.lastTimestamp ≤ bigIntMax (now - self.epoch) 1)
      && absorbedRun (generate self now).2 rest

/-- Modelled from the spec: the packing formula of spec §4.1 step 6,
`identifier = (lastTimestamp << (machineIdBits + sequenceBits)) |
(machineId masked to machineIdBits, shifted left by sequenceBits) |
sequence`, read off a post-call state.  For comparison with what
`generate` actually returns. -/
def specPack (self : Quark) : Int :=
  Int.lor
    (Int.lor
      (shlB self.lastTimestamp
        (self.allocations.machineId + self.allocations.sequence))
      (shlB (extractNumRange self.machineId 0 self.allocations.machineId)
        self.allocations.sequence))
    self.sequence

/-- Modelled from the spec: the timestamp decomposition of spec §4.2,
`timestamp = (identifier >> (machineIdBits + sequenceBits)) + epoch`.
For comparison with what `extractTimestamp` actually computes. -/
def specExtractTimestamp (self : Quark) (quark : Int) : Int :=
  shrB quark (self.allocations.machineId + self.allocations.sequence)
    + self.epoch

/-- The codec built by `new Quark({ machineId: 1 })`. -/
def default1 : Quark := ⟨1, -1, 0, 0, ⟨10, 12⟩⟩

/-- The codec built by `new Quark({ machineId: 1, epoch: 1000 })`. -/
def epoch1000 : Quark := ⟨1, -1, 0, 1000, ⟨10, 12⟩⟩

/-- The codec built by
`new Quark({ machineId: 1, customAllocation: { machineId: 5, sequence: 10 } })`:
a valid configuration whose widths sum to 15 < 22. -/
def narrow510 : Quark := ⟨1, -1, 0, 0, ⟨5, 10⟩⟩

/-- The codec built by `new Quark({ machineId: -1 })`: the source stores the
negative machine id unclamped. -/
def negMachine : Quark := ⟨-1, -1, 0, 0, ⟨10, 12⟩⟩

/-- The frozen clock value of the spec's concrete scenario. -/
def frozenT : Int := 1704067200000

/-- Proof-layer name for `generate`'s step 2 value
`relativeTime = max(now - epoch, 1)`. -/
def relativeTime (self : Quark) (now : Int) : Int :=
  bigIntMax (now - self.epoch) 1

/-- Proof-layer name for the sequence value `generate` stores. -/
def nextSequence (self : Quark) (now : Int) : Int :=
  if relativeTime self now ≤ self.lastTimestamp then
    extractNumRange (self.sequence + 1) 0 self.allocations.sequence
  else 0

/-- Proof-layer name for the timestamp value `generate` stores. -/
def nextTimestamp (self : Quark) (now : Int) : Int :=
  if nextSequence self now = 0 then
    bigIntMax (relativeTime self now) (self.lastTimestamp + 1)
  else relativeTime self now

/-- The machine-id field value `generate` packs:
`extractNumRange(machineId, 0, machineIdBits)`. -/
def machineIdField (self : Quark) : Int :=
  extractNumRange self.machineId 0 self.allocations.machineId

/-- The arithmetic reading of the identifier whose fields a state stores:
timestamp in the bits from 22 up, the machine-id field above the sequence
field. -/
def packOf (self : Quark) : Int :=
  self.lastTimestamp * 2 ^ 22
    + machineIdField self * 2 ^ self.allocations.sequence
    + self.sequence

end Quark

/-! Bridge lemmas between the bitwise operations of the source and plain
integer arithmetic. -/

theorem int_lor_natCast (a b : Nat) :
    Int.lor (a : Int) (b : Int) = ((a ||| b : Nat) : Int) := rfl

theorem extractNumRange_zero (num : Int) (k : Nat) :
    extractNumRange num 0 k = num % 2 ^ k := by
  simp [extractNumRange, shrB]

theorem extractNumRange_zero_nonneg (num : Int) (k : Nat) :
    0 ≤ extractNumRange num 0 k := by
  rw [extractNumRange_zero]
  exact Int.emod_nonneg num (by positivity)

theorem extractNumRange_zero_lt (num : Int) (k : Nat) :
    extractNumRange num 0 k < 2 ^ k := by
  rw [extractNumRange_zero]
  exact Int.emod_lt_of_pos num (by positivity)

theorem nat_shift_pack (A M S mB sB : Nat) (hM : M < 2 ^ mB)
    (hS : S < 2 ^ sB) (hb : mB + sB ≤ 22) :
    (A * 2 ^ 22 ||| M * 2 ^ sB) ||| S = A * 2 ^ 22 + M * 2 ^ sB + S := by
  have hsB : sB ≤ 22 := le_trans (Nat.le_add_left _ _) hb
  have hMS : M * 2 ^ sB < 2 ^ 22 := by
    calc M * 2 ^ sB < 2 ^ mB * 2 ^ sB :=
          (Nat.mul_lt_mul_right (Nat.two_pow_pos sB)).mpr hM
      _ = 2 ^ (mB + sB) := (Nat.pow_add 2 mB sB).symm
      _ ≤ 2 ^ 22 := Nat.pow_le_pow_right (by omega) hb
  have h1 : A * 2 ^ 22 ||| M * 2 ^ sB = A * 2 ^ 22 + M * 2 ^ sB := by
    rw [Nat.mul_comm A (2 ^ 22), ← Nat.mul_add_lt_is_or hMS A]
  have decomp : A * 2 ^ 22 + M * 2 ^ sB = 2 ^ sB * (2 ^ (22 - sB) * A + M) := by
    rw [Nat.mul_add, ← Nat.mul_assoc, ← Nat.pow_add, Nat.add_sub_cancel' hsB]
    ring
  rw [h1, decomp, ← Nat.mul_add_lt_is_or hS _, ← decomp]

theorem lor_pack_eq_add (ts mid sq : Int) (mB sB : Nat)
    (hts : 0 ≤ ts) (hm0 : 0 ≤ mid) (hm : mid < 2 ^ mB)
    (hq0 : 0 ≤ sq) (hq : sq < 2 ^ sB) (hb : mB + sB ≤ 22) :
    Int.lor (Int.lor (shlB ts 22) (shlB mid sB)) sq
      = ts * 2 ^ 22 + mid * 2 ^ sB + sq := by
  obtain ⟨A, rfl⟩ := Int.eq_ofNat_of_zero_le hts
  obtain ⟨M, rfl⟩ := Int.eq_ofNat_of_zero_le hm0
  obtain ⟨S, rfl⟩ := Int.eq_ofNat_of_zero_le hq0
  have hM : M < 2 ^ mB := by exact_mod_cast hm
  have hS : S < 2 ^ sB := by exact_mod_cast hq
  have e1 : shlB (A : Int) 22 = ((A * 2 ^ 22 : Nat) : Int) := by
    simp [shlB]
  have e2 : shlB (M : Int) sB = ((M * 2 ^ sB : Nat) : Int) := by
    simp [shlB]
  rw [e1, e2, int_lor_natCast, int_lor_natCast, nat_shift_pack A M S mB sB hM hS hb]
  push_cast
  ring

theorem pack_field_bound (mid sq : Int) (mB sB : Nat)
    (hm0 : 0 ≤ mid) (hm : mid < 2 ^ mB) (hq0 : 0 ≤ sq) (hq : sq < 2 ^ sB) :
    0 ≤ mid * 2 ^ sB + sq ∧ mid * 2 ^ sB + sq < 2 ^ (mB + sB) := by
  constructor
  · have : (0 : Int) ≤ mid * 2 ^ sB := mul_nonneg hm0 (by positivity)
    linarith
  · have h1 : mid + 1 ≤ 2 ^ mB := by omega
    have h2 : (mid + 1) * 2 ^ sB ≤ 2 ^ mB * 2 ^ sB :=
      mul_le_mul_of_nonneg_right h1 (by positivity)
    have h3 : ((2 : Int) ^ mB) * 2 ^ sB = 2 ^ (mB + sB) := (pow_add 2 mB sB).symm
    nlinarith

theorem ediv_pack_timestamp (ts r : Int) (h0 : 0 ≤ r) (hr : r < 2 ^ 22) :
    (ts * 2 ^ 22 + r) / 2 ^ 22 = ts := by
  rw [add_comm, Int.add_mul_ediv_right r ts (by positivity),
    Int.ediv_eq_zero_of_lt h0 hr]
  ring

theorem emod_pack_low (x q : Int) (k : Nat) (h0 : 0 ≤ q) (hq : q < 2 ^ k) :
    (x * 2 ^ k + q) % 2 ^ k = q := by
  rw [add_comm, Int.add_mul_emod_self, Int.emod_eq_of_lt h0 hq]

theorem emod_ediv_pack_mid (ts mid sq : Int) (mB sB : Nat)
    (hm0 : 0 ≤ mid) (hm : mid < 2 ^ mB) (hq0 : 0 ≤ sq) (hq : sq < 2 ^ sB)
    (hb : mB + sB ≤ 22) :
    (ts * 2 ^ 22 + mid * 2 ^ sB + sq) % 2 ^ (sB + mB) / 2 ^ sB = mid := by
  obtain ⟨hr0, hr1⟩ := pack_field_bound mid sq mB sB hm0 hm hq0 hq
  have hbs : sB + mB ≤ 22 := by omega
  have h22 : ((2 : Int) ^ 22) = 2 ^ (22 - (sB + mB)) * 2 ^ (sB + mB) := by
    rw [← pow_add, Nat.sub_add_cancel hbs]
  have hsplit : ts * 2 ^ 22 + mid * 2 ^ sB + sq
      = (mid * 2 ^ sB + sq) + ts * 2 ^ (22 - (sB + mB)) * 2 ^ (sB + mB) := by
    rw [h22]; ring
  have hr1' : mid * 2 ^ sB + sq < 2 ^ (sB + mB) := by
    rw [Nat.add_comm sB mB]; exact hr1
  rw [hsplit, Int.add_mul_emod_self, Int.emod_eq_of_lt hr0 hr1', add_comm,
    Int.add_mul_ediv_right sq mid (show (2 : Int) ^ sB ≠ 0 by positivity),
    Int.ediv_eq_zero_of_lt hq0 hq]
  ring

namespace Quark

theorem generate_snd (self : Quark) (now : Int) :
    (generate self now).2
      = ⟨self.machineId, nextTimestamp self now, nextSequence self now,
          self.epoch, self.allocations⟩ := rfl

theorem generate_fst (self : Quark) (now : Int) :
    (generate self now).1
      = Int.lor
          (Int.lor (shlB (nextTimestamp self now) 22)
            (shlB (machineIdField self) self.allocations.sequence))
          (nextSequence self now) := rfl

theorem generateSeq_cons (self : Quark) (now : Int) (rest : List Int) :
    (generateSeq self (now :: rest)).1
      = (generate self now).1 :: (generateSeq (generate self now).2 rest).1 := rfl

theorem absorbedRun_cons (self : Quark) (now : Int) (rest : List Int) :
    absorbedRun self (now :: rest) = true
      ↔ self.lastTimestamp ≤ relativeTime self now
          ∧ absorbedRun (generate self now).2 rest = true := by
  simp [absorbedRun, relativeTime, Bool.and_eq_true]

theorem one_le_relativeTime (self : Quark) (now : Int) :
    1 ≤ relativeTime self now := le_max_right _ _

theorem nextSequence_nonneg (self : Quark) (now : Int) :
    0 ≤ nextSequence self now := by
  unfold nextSequence
  split
  · exact extractNumRange_zero_nonneg _ _
  · exact le_refl 0

theorem nextSequence_lt (self : Quark) (now : Int) :
    nextSequence self now < 2 ^ self.allocations.sequence := by
  unfold nextSequence
  split
  · exact extractNumRange_zero_lt _ _
  · positivity

theorem one_le_nextTimestamp (self : Quark) (now : Int) :
    1 ≤ nextTimestamp self now := by
  unfold nextTimestamp
  split
  · exact le_trans (one_le_relativeTime self now) (le_max_left _ _)
  · exact one_le_relativeTime self now

theorem machineIdField_nonneg (self : Quark) : 0 ≤ machineIdField self :=
  extractNumRange_zero_nonneg _ _

theorem machineIdField_lt (self : Quark) :
    machineIdField self < 2 ^ self.allocations.machineId :=
  extractNumRange_zero_lt _ _

/-- Under the bit-budget invariant, the identifier `generate` returns is the
plain arithmetic packing of the state it stores. -/
theorem generate_fst_eq_packOf (self : Quark) (now : Int)
    (hb : self.allocations.machineId + self.allocations.sequence ≤ 22) :
    (generate self now).1 = packOf (generate self now).2 := by
  rw [generate_fst, generate_snd,
    lor_pack_eq_add (nextTimestamp self now) (machineIdField self)
      (nextSequence self now) self.allocations.machineId
      self.allocations.sequence
      (le_trans (by omega) (one_le_nextTimestamp self now))
      (machineIdField_nonneg self) (machineIdField_lt self)
      (nextSequence_nonneg self now) (nextSequence_lt self now) hb]
  rfl

/-- One absorbed `generate` step strictly advances `(lastTimestamp, sequence)`
in lexicographic order. -/
theorem step_lex (self : Quark) (now : Int)
    (habs : self.lastTimestamp ≤ relativeTime self now)
    (hs0 : 0 ≤ self.sequence)
    (hs1 : self.sequence < 2 ^ self.allocations.sequence) :
    self.lastTimestamp < nextTimestamp self now
      ∨ (nextTimestamp self now = self.lastTimestamp
          ∧ self.sequence < nextSequence self now) := by
  by_cases hc : relativeTime self now ≤ self.lastTimestamp
  · have heq : relativeTime self now = self.lastTimestamp := le_antisymm hc habs
    have hseq : nextSequence self now
        = (self.sequence + 1) % 2 ^ self.allocations.sequence := by
      unfold nextSequence
      rw [if_pos hc, extractNumRange_zero]
    by_cases h0 : nextSequence self now = 0
    · left
      unfold nextTimestamp
      rw [if_pos h0, heq]
      exact lt_of_lt_of_le (lt_add_one _) (le_max_right _ _)
    · right
      have hlt : self.sequence + 1 < 2 ^ self.allocations.sequence := by
        rcases lt_or_eq_of_le (by omega : self.sequence + 1 ≤ 2 ^ self.allocations.sequence) with h | h
        · exact h
        · exfalso
          apply h0
          rw [hseq, h, Int.emod_self]
      constructor
      · unfold nextTimestamp
        rw [if_neg h0, heq]
      · have : nextSequence self now = self.sequence + 1 := by
          rw [hseq, Int.emod_eq_of_lt (by omega) hlt]
        omega
  · left
    have h0 : nextSequence self now = 0 := by
      unfold nextSequence
      rw [if_neg hc]
    unfold nextTimestamp
    rw [if_pos h0]
    exact lt_of_not_le fun h =>
      hc (le_trans (le_max_left _ _) h)

/-- Lexicographic advance of `(lastTimestamp, sequence)` strictly increases
the packed identifier value, for two states sharing a configuration. -/
theorem packOf_strict (s t : Quark)
    (hm : s.machineId = t.machineId) (ha : s.allocations = t.allocations)
    (hq0 : 0 ≤ t.sequence)
    (hqs : s.sequence < 2 ^ s.allocations.sequence)
    (hsB : s.allocations.sequence ≤ 22)
    (hlex : s.lastTimestamp < t.lastTimestamp
      ∨ (t.lastTimestamp = s.lastTimestamp ∧ s.sequence < t.sequence)) :
    packOf s < packOf t := by
  have hfield : machineIdField t = machineIdField s := by
    unfold machineIdField
    rw [hm, ha]
  unfold packOf
  rw [hfield, ← ha]
  rcases hlex with h | ⟨h1, h2⟩
  · have hz : (2 : Int) ^ s.allocations.sequence ≤ 2 ^ 22 :=
      pow_le_pow_right₀ (by norm_num) hsB
    have h22 : s.lastTimestamp + 1 ≤ t.lastTimestamp := h
    nlinarith
  · rw [h1]
    omega

/-- Main induction for monotone uniqueness: under the state invariants and
the absorbed-run hypothesis, the identifiers of a run are strictly
increasing, and all of them exceed the packed value of the initial state. -/
theorem generateSeq_pairwise (nows : List Int) (s : Quark)
    (hs0 : 0 ≤ s.sequence)
    (hs1 : s.sequence < 2 ^ s.allocations.sequence)
    (hb : s.allocations.machineId + s.allocations.sequence ≤ 22)
    (habs : absorbedRun s nows = true) :
    (generateSeq s nows).1.Pairwise (· < ·)
      ∧ ∀ id ∈ (generateSeq s nows).1, packOf s < id := by
  induction nows generalizing s with
  | nil =>
    constructor
    · exact List.Pairwise.nil
    · intro id hid
      simp [generateSeq] at hid
  | cons now rest ih =>
    obtain ⟨h1, h2⟩ := (absorbedRun_cons s now rest).mp habs
    have hsB : s.allocations.sequence ≤ 22 := by omega
    have hlex := step_lex s now h1 hs0 hs1
    have hfst := generate_fst_eq_packOf s now hb
    have hs0' : 0 ≤ (generate s now).2.sequence := by
      rw [generate_snd]
      exact nextSequence_nonneg s now
    have hs1' : (generate s now).2.sequence
        < 2 ^ (generate s now).2.allocations.sequence := by
      rw [generate_snd]
      exact nextSequence_lt s now
    have hb' : (generate s now).2.allocations.machineId
        + (generate s now).2.allocations.sequence ≤ 22 := by
      rw [generate_snd]
      exact hb
    have hpack : packOf s < packOf (generate s now).2 := by
      apply packOf_strict s (generate s now).2 (by rw [generate_snd]) (by rw [generate_snd]) hs0' hs1 hsB
      rw [generate_snd]
      exact hlex
    obtain ⟨hp, hgt⟩ := ih (generate s now).2 hs0' hs1' hb' h2
    rw [generateSeq_cons]
    constructor
    · apply List.Pairwise.cons
      · intro y hy
        rw [hfst]
        exact hgt y hy
      · exact hp
    · intro id hid
      rcases List.mem_cons.mp hid with h | h
      · rw [h, hfst]
        exact hpack
      · exact lt_trans hpack (hgt id h)

end Quark

theorem emod_pack_seq (ts mid sq : Int) (sB : Nat) (hsB : sB ≤ 22)
    (hq0 : 0 ≤ sq) (hq : sq < 2 ^ sB) :
    (ts * 2 ^ 22 + mid * 2 ^ sB + sq) % 2 ^ sB = sq := by
  have h22 : ((2 : Int) ^ 22) = 2 ^ (22 - sB) * 2 ^ sB := by
    rw [← pow_add, Nat.sub_add_cancel hsB]
  have hsplit : ts * 2 ^ 22 + mid * 2 ^ sB + sq
      = sq + (ts * 2 ^ (22 - sB) + mid) * 2 ^ sB := by
    rw [h22]; ring
  rw [hsplit, Int.add_mul_emod_self, Int.emod_eq_of_lt hq0 hq]

namespace Quark

/-- What the extractors return on a freshly generated identifier, for any
codec state `t` sharing the generating codec's configuration. -/
theorem extract_of_generate (self t : Quark) (now : Int)
    (hb : self.allocations.machineId + self.allocations.sequence ≤ 22)
    (ha : t.allocations = self.allocations) (he : t.epoch = self.epoch) :
    extractTimestamp t (generate self now).1 = nextTimestamp self now + self.epoch
      ∧ extractMachineId t (generate self now).1 = machineIdField self
      ∧ extractSequence t (generate self now).1 = nextSequence self now := by
  have hsB : self.allocations.sequence ≤ 22 := by omega
  have hts0 : (0 : Int) ≤ nextTimestamp self now :=
    le_trans (by omega) (one_le_nextTimestamp self now)
  have hm0 := machineIdField_nonneg self
  have hm1 := machineIdField_lt self
  have hq0 := nextSequence_nonneg self now
  have hq1 := nextSequence_lt self now
  have hfield : (0 : Int) ≤ machineIdField self * 2 ^ self.allocations.sequence
        + nextSequence self now
      ∧ machineIdField self * 2 ^ self.allocations.sequence + nextSequence self now
        < 2 ^ (self.allocations.machineId + self.allocations.sequence) :=
    pack_field_bound _ _ _ _ hm0 hm1 hq0 hq1
  have hpow : (2 : Int) ^ (self.allocations.machineId + self.allocations.sequence)
      ≤ 2 ^ 22 := pow_le_pow_right₀ (by norm_num) hb
  have hX : (generate self now).1
      = nextTimestamp self now * 2 ^ 22
        + machineIdField self * 2 ^ self.allocations.sequence
        + nextSequence self now := by
    rw [generate_fst_eq_packOf self now hb, generate_snd]
    rfl
  refine ⟨?_, ?_, ?_⟩
  · show shrB (generate self now).1 22 + t.epoch = _
    rw [hX, he]
    unfold shrB
    have hassoc : nextTimestamp self now * 2 ^ 22
        + machineIdField self * 2 ^ self.allocations.sequence
        + nextSequence self now
        = nextTimestamp self now * 2 ^ 22
          + (machineIdField self * 2 ^ self.allocations.sequence
              + nextSequence self now) := by ring
    rw [hassoc, ediv_pack_timestamp _ _ hfield.1 (lt_of_lt_of_le hfield.2 hpow)]
  · show extractNumRange (generate self now).1 t.allocations.sequence
        (t.allocations.sequence + t.allocations.machineId) = _
    rw [hX, ha]
    unfold extractNumRange shrB
    exact emod_ediv_pack_mid _ _ _ _ _ hm0 hm1 hq0 hq1 hb
  · show extractNumRange (generate self now).1 0 t.allocations.sequence = _
    rw [hX, ha, extractNumRange_zero]
    exact emod_pack_seq _ _ _ _ hsB hq0 hq1

/-- A `generate` call whose `relativeTime` ties the stored `lastTimestamp`
and whose sequence does not wrap: the sequence increments, the timestamp
stays. -/
theorem generate_tick (self : Quark) (now : Int)
    (h1 : relativeTime self now = self.lastTimestamp)
    (hq0 : 0 ≤ self.sequence)
    (hq : self.sequence + 1 < 2 ^ self.allocations.sequence) :
    (generate self now).2
      = ⟨self.machineId, self.lastTimestamp, self.sequence + 1, self.epoch,
          self.allocations⟩ := by
  rw [generate_snd]
  have hseq : nextSequence self now = self.sequence + 1 := by
    unfold nextSequence
    rw [if_pos (le_of_eq h1), extractNumRange_zero,
      Int.emod_eq_of_lt (by omega) hq]
  have hne : ¬ nextSequence self now = 0 := by omega
  have hts : nextTimestamp self now = self.lastTimestamp := by
    unfold nextTimestamp
    rw [if_neg hne, h1]
  rw [hseq, hts]

theorem c2_state : ∀ k : Nat, k ≤ 4095 →
    generateIter default1 frozenT (k + 1)
      = ⟨1, frozenT, (k : Int), 0, ⟨10, 12⟩⟩ := by
  intro k
  induction k with
  | zero => intro _; decide
  | succ j ih =>
    intro hk
    have hcast : ((j + 1 : Nat) : Int) = (j : Int) + 1 := by push_cast; ring
    rw [hcast]
    show (generate (generateIter default1 frozenT (j + 1)) frozenT).2 = _
    rw [ih (by omega)]
    exact generate_tick _ _
      (by show bigIntMax (frozenT - (0 : Int)) 1 = frozenT; decide)
      (by positivity)
      (by norm_num; exact_mod_cast (by omega : j + 1 < 4096))

theorem c2_id (k : Nat) (hk : k ≤ 4095) :
    (generate (generateIter default1 frozenT k) frozenT).1
      = frozenT * 2 ^ 22 + 2 ^ 12 + (k : Int) := by
  cases k with
  | zero =>
    show (generate default1 frozenT).1 = _
    norm_num
    decide
  | succ j =>
    rw [c2_state j (by omega)]
    have hb : ((⟨1, frozenT, (j : Int), 0, ⟨10, 12⟩⟩ : Quark)).allocations.machineId
        + ((⟨1, frozenT, (j : Int), 0, ⟨10, 12⟩⟩ : Quark)).allocations.sequence ≤ 22 := by
      norm_num
    rw [generate_fst_eq_packOf _ frozenT hb]
    rw [generate_tick _ _
      (by show bigIntMax (frozenT - (0 : Int)) 1 = frozenT; decide)
      (by positivity)
      (by norm_num; exact_mod_cast (by omega : j + 1 < 4096))]
    simp only [packOf, machineIdField]
    rw [show extractNumRange 1 0 10 = 1 from by decide]
    push_cast
    ring

theorem c2_after_4096 :
    generateIter default1 frozenT 4096 = ⟨1, frozenT, 4095, 0, ⟨10, 12⟩⟩ := by
  have h := c2_state 4095 (by norm_num)
  norm_num at h
  exact h

theorem c2_wrap :
    generate ⟨1, frozenT, 4095, 0, ⟨10, 12⟩⟩ frozenT
      = ((frozenT + 1) * 2 ^ 22 + 2 ^ 12, ⟨1, frozenT + 1, 0, 0, ⟨10, 12⟩⟩) := by
  decide

theorem c2_extract (ts k : Int) (hk0 : 0 ≤ k) (hk : k < 4096) :
    extractTimestamp default1 (ts * 2 ^ 22 + 2 ^ 12 + k) = ts
      ∧ extractSequence default1 (ts * 2 ^ 22 + 2 ^ 12 + k) = k := by
  have e12 : ((2 : Int) ^ 12) = 4096 := by norm_num
  have e22 : ((2 : Int) ^ 22) = 4194304 := by norm_num
  have hb1 : (0 : Int) ≤ 2 ^ 12 + k := by rw [e12]; omega
  have hb2 : (2 : Int) ^ 12 + k < 2 ^ 22 := by rw [e12, e22]; omega
  constructor
  · show shrB (ts * 2 ^ 22 + 2 ^ 12 + k) 22 + (0 : Int) = ts
    unfold shrB
    rw [show ts * 2 ^ 22 + 2 ^ 12 + k = ts * 2 ^ 22 + (2 ^ 12 + k) from by
      ring]
    rw [ediv_pack_timestamp _ _ hb1 hb2]
    ring
  · show extractNumRange (ts * 2 ^ 22 + 2 ^ 12 + k) 0 12 = k
    rw [extractNumRange_zero]
    rw [show ts * 2 ^ 22 + 2 ^ 12 + k = (ts * 2 ^ 10 + 1) * 2 ^ 12 + k from by
      ring]
    exact emod_pack_low _ _ _ hk0 (by rw [e12]; omega)

/-! The claim theorems. -/

/-- **C1, counterexample.**  The claim — for every sequence of `generate()`
calls with arbitrary (possibly frozen or rewound) time readings, the returned
identifiers are pairwise distinct and non-decreasing — is false at the codec
`new Quark({machineId: 1})` with time readings `[100, 50, 100]`: the three
identifiers are `[419434496, 209719297, 419434496]`, so the second is smaller
than the first and the third repeats the first. -/
theorem C1_counterexample :
    (generateSeq default1 [100, 50, 100]).1 = [419434496, 209719297, 419434496]
      ∧ ¬ ((generateSeq default1 [100, 50, 100]).1.Pairwise (· ≠ ·)
            ∧ (generateSeq default1 [100, 50, 100]).1.Chain' (· ≤ ·)) := by
  decide

/-- **C1, amended.**  For every run of consecutive `generate()` calls in
which each call's `relativeTime = max(now - epoch, 1)` is at least the
codec's current `lastTimestamp` (the spec's condition that any clock stall
or regression is absorbed by sequence-driven timestamp advancement; a fresh
codec under a non-rewinding clock satisfies it until a sequence-wrap
advancement outruns the clock), the returned identifiers are pairwise
distinct and non-decreasing, given the codec invariants: the stored sequence
lies in `[0, 2^sequenceBits)` and the bit widths sum to at most 22. -/
theorem C1_monotone_unique (s : Quark) (nows : List Int)
    (hs0 : 0 ≤ s.sequence)
    (hs1 : s.sequence < 2 ^ s.allocations.sequence)
    (hb : s.allocations.machineId + s.allocations.sequence ≤ 22)
    (habs : absorbedRun s nows = true) :
    (generateSeq s nows).1.Pairwise (· ≠ ·)
      ∧ (generateSeq s nows).1.Chain' (· ≤ ·) := by
  obtain ⟨hp, _⟩ := generateSeq_pairwise nows s hs0 hs1 hb habs
  exact ⟨hp.imp fun h => ne_of_lt h, (hp.chain').imp fun a b h => le_of_lt h⟩

/-- **C1, witness** for the amended theorem: a concrete absorbed run. -/
theorem C1_monotone_unique_witness :
    (0 ≤ default1.sequence
        ∧ default1.sequence < 2 ^ default1.allocations.sequence
        ∧ default1.allocations.machineId + default1.allocations.sequence ≤ 22
        ∧ absorbedRun default1 [100, 100, 101] = true)
      ∧ ((generateSeq default1 [100, 100, 101]).1.Pairwise (· ≠ ·)
          ∧ (generateSeq default1 [100, 100, 101]).1.Chain' (· ≤ ·)) :=
  ⟨⟨by decide, by decide, by decide, by decide⟩,
    C1_monotone_unique default1 [100, 100, 101] (by decide) (by decide)
      (by decide) (by decide)⟩

/-- **C2, counterexample.**  The claim says the wrap happens on call number
`2^sequenceBits = 4096`: that call should extract sequence `0` and timestamp
`T + 1`.  On the code, call number 4096 (the call made from the state after
4095 calls) extracts sequence `4095` and timestamp `T`: the 4096 distinct
sequence values `0..4095` fill calls `1..4096`, and the wrap is call 4097. -/
theorem C2_counterexample :
    extractSequence default1
        ((generate (generateIter default1 frozenT 4095) frozenT).1) = 4095
      ∧ extractTimestamp default1
          ((generate (generateIter default1 frozenT 4095) frozenT).1) = frozenT
      ∧ ¬ (extractSequence default1
              ((generate (generateIter default1 frozenT 4095) frozenT).1) = 0
            ∧ extractTimestamp default1
                ((generate (generateIter default1 frozenT 4095) frozenT).1)
              = frozenT + 1) := by
  have h1 := c2_id 4095 (by norm_num)
  obtain ⟨ht, hs⟩ := c2_extract frozenT ((4095 : Nat) : Int) (by positivity)
    (by exact_mod_cast (by norm_num : (4095 : Nat) < 4096))
  rw [← h1] at ht hs
  have hcast : (((4095 : Nat)) : Int) = 4095 := by norm_num
  rw [hcast] at hs
  refine ⟨hs, ht, ?_⟩
  rw [hs, ht]
  intro h
  omega

/-- **C2, amended.**  With `machineId = 1`, `epoch = 0`, the clock frozen at
`T = 1704067200000` and the default 12 sequence bits: for every `k ≤ 4095`,
call number `k + 1` extracts timestamp `T` and sequence `k` (so calls
`1..4096` extract sequences `0..4095` in order at timestamp `T`), and call
number 4097 — the `2^sequenceBits + 1`-st call, the first wrap — extracts
sequence `0` and timestamp `T + 1`, at least one millisecond above the
previous call's extracted timestamp. -/
theorem C2_frozen_scenario :
    (∀ k : Nat, k ≤ 4095 →
      extractTimestamp default1
          ((generate (generateIter default1 frozenT k) frozenT).1) = frozenT
        ∧ extractSequence default1
            ((generate (generateIter default1 frozenT k) frozenT).1) = (k : Int))
      ∧ extractTimestamp default1
          ((generate (generateIter default1 frozenT 4096) frozenT).1)
        = frozenT + 1
      ∧ extractSequence default1
          ((generate (generateIter default1 frozenT 4096) frozenT).1) = 0 := by
  refine ⟨?_, ?_⟩
  · intro k hk
    rw [c2_id k hk]
    obtain ⟨ht, hs⟩ := c2_extract frozenT (k : Int) (by positivity)
      (by exact_mod_cast (by omega : k < 4096))
    exact ⟨ht, hs⟩
  · have hid : (generate (generateIter default1 frozenT 4096) frozenT).1
        = (frozenT + 1) * 2 ^ 22 + 2 ^ 12 + 0 := by
      rw [c2_after_4096]
      rw [congrArg Prod.fst c2_wrap]
      ring
    rw [hid]
    obtain ⟨ht, hs⟩ := c2_extract (frozenT + 1) 0 (by norm_num) (by norm_num)
    exact ⟨ht, hs⟩

/-- **C2, witness** for the amended theorem, at `k = 0`: the first call of
the frozen scenario extracts timestamp `T` and sequence `0`. -/
theorem C2_frozen_scenario_witness :
    (0 : Nat) ≤ 4095
      ∧ extractTimestamp default1
          ((generate (generateIter default1 frozenT 0) frozenT).1) = frozenT
      ∧ extractSequence default1
          ((generate (generateIter default1 frozenT 0) frozenT).1)
        = ((0 : Nat) : Int) :=
  ⟨by decide, (C2_frozen_scenario.1 0 (by decide)).1,
    (C2_frozen_scenario.1 0 (by decide)).2⟩

/-- **C3, counterexample.**  The claim's consequence — whenever the clock
strictly advances between two calls, the second call's extracted sequence is
`0` — is false: with `new Quark({machineId: 1, epoch: 1000})`, a first call
at `now = 1000` and a second call at `now = 1001` (the clock strictly
advanced), both calls have `relativeTime = max(now - 1000, 1) = 1`, so the
second call increments the sequence and extracts `1`, not `0`. -/
theorem C3_counterexample :
    mkQuark ⟨1, some 1000, none, false⟩ = Except.ok epoch1000
      ∧ (1000 : Int) < 1001
      ∧ extractSequence epoch1000
          ((generate (generate epoch1000 1000).2 1001).1) = 1
      ∧ (1 : Int) ≠ 0 := by decide

/-- **C3, amended.**  The sequence rule as the code implements it: if
`relativeTime = max(now - epoch, 1)` is at most `lastTimestamp`, the stored
sequence becomes `(sequence + 1) mod 2^sequenceBits` (a silent mask, never
an error), otherwise `0`; and whenever `relativeTime` strictly exceeds
`lastTimestamp` (which a strictly advancing wall clock need not imply, e.g.
at or below the epoch where `relativeTime` floors at 1), the call's
extracted sequence is `0`. -/
theorem C3_sequence_rule (self : Quark) (now : Int)
    (hb : self.allocations.machineId + self.allocations.sequence ≤ 22) :
    (generate self now).2.sequence
        = (if bigIntMax (now - self.epoch) 1 ≤ self.lastTimestamp
            then (self.sequence + 1) % 2 ^ self.allocations.sequence
            else 0)
      ∧ (self.lastTimestamp < bigIntMax (now - self.epoch) 1 →
          extractSequence (generate self now).2 (generate self now).1 = 0) := by
  constructor
  · rw [generate_snd]
    show nextSequence self now = _
    unfold nextSequence relativeTime
    split_ifs with h
    · exact extractNumRange_zero _ _
    · rfl
  · intro h
    have h3 := (extract_of_generate self (generate self now).2 now hb
      (by rw [generate_snd]) (by rw [generate_snd])).2.2
    rw [h3]
    unfold nextSequence relativeTime
    rw [if_neg (not_le.mpr h)]

/-- **C3, witness** for the amended theorem, on a fresh default codec at
`now = 100`: the clock exceeds `lastTimestamp = -1`, so the sequence is `0`,
both in the state and as extracted. -/
theorem C3_sequence_rule_witness :
    (default1.allocations.machineId + default1.allocations.sequence ≤ 22
        ∧ default1.lastTimestamp < bigIntMax ((100 : Int) - default1.epoch) 1)
      ∧ (generate default1 100).2.sequence
        = (if bigIntMax ((100 : Int) - default1.epoch) 1 ≤ default1.lastTimestamp
            then (default1.sequence + 1) % 2 ^ default1.allocations.sequence
            else 0)
      ∧ extractSequence (generate default1 100).2 (generate default1 100).1 = 0 :=
  ⟨⟨by decide, by decide⟩, (C3_sequence_rule default1 100 (by decide)).1,
    (C3_sequence_rule default1 100 (by decide)).2 (by decide)⟩

/-- **C4, counterexample.**  The claim — `generate` packs the timestamp at
shift `machineIdBits + sequenceBits` — is false for a valid configuration
whose widths sum to less than 22: with widths `(5, 10)`, machineId 1, epoch
0 and `now = 1`, `generate` returns `(1 << 22) | (1 << 10) = 4195328`
(hard-coded 22-bit shift), while the claimed formula gives
`(1 << 15) | (1 << 10) = 33792`. -/
theorem C4_counterexample :
    mkQuark ⟨1, none, some ⟨some 5, some 10⟩, false⟩ = Except.ok narrow510
      ∧ (generate narrow510 1).1 = 4195328
      ∧ specPack (generate narrow510 1).2 = 33792
      ∧ (generate narrow510 1).1 ≠ specPack (generate narrow510 1).2 := by
  decide

/-- **C4, amended.**  Under the bit-budget invariant, `generate` packs the
returned identifier as `lastTimestamp * 2^22 + (machineId masked to
machineIdBits) * 2^sequenceBits + sequence`: the machine-id and sequence
fields sit where the configuration puts them, but the timestamp shift is
the hard-coded constant 22, not `machineIdBits + sequenceBits`. -/
theorem C4_pack_formula (self : Quark) (now : Int)
    (hb : self.allocations.machineId + self.allocations.sequence ≤ 22) :
    (generate self now).1
      = (generate self now).2.lastTimestamp * 2 ^ 22
        + extractNumRange self.machineId 0 self.allocations.machineId
          * 2 ^ self.allocations.sequence
        + (generate self now).2.sequence := by
  rw [generate_fst_eq_packOf self now hb, generate_snd]
  rfl

/-- **C4, witness** for the amended theorem at the `(5, 10)` codec. -/
theorem C4_pack_formula_witness :
    (narrow510.allocations.machineId + narrow510.allocations.sequence ≤ 22)
      ∧ (generate narrow510 1).1
        = (generate narrow510 1).2.lastTimestamp * 2 ^ 22
          + extractNumRange narrow510.machineId 0 narrow510.allocations.machineId
            * 2 ^ narrow510.allocations.sequence
          + (generate narrow510 1).2.sequence :=
  ⟨by decide, C4_pack_formula narrow510 1 (by decide)⟩

/-- **C5, counterexample.**  The claim — `extractTimestamp` shifts right by
`machineIdBits + sequenceBits` — is false for the `(5, 10)` configuration:
on the identifier `4195328` generated by that codec, `extractTimestamp`
returns `4195328 >> 22 = 1` (the true packed timestamp), while the claimed
formula gives `4195328 >> 15 = 128`. -/
theorem C5_counterexample :
    extractTimestamp narrow510 4195328 = 1
      ∧ specExtractTimestamp narrow510 4195328 = 128
      ∧ extractTimestamp narrow510 4195328
        ≠ specExtractTimestamp narrow510 4195328 := by decide

/-- **C5, amended.**  For every identifier and every codec,
`extractTimestamp` returns `(identifier >> 22) + epoch`: the shift amount is
the hard-coded constant 22, independent of the configured bit widths — the
result does not change when the codec's allocations are replaced by any
other allocations. -/
theorem C5_extract_formula (self : Quark) (q : Int) (a : Allocations) :
    extractTimestamp self q = q / 2 ^ 22 + self.epoch
      ∧ extractTimestamp
          ⟨self.machineId, self.lastTimestamp, self.sequence, self.epoch, a⟩ q
        = extractTimestamp self q :=
  ⟨rfl, rfl⟩

/-- **C6, code evaluation at the failing input.**  Constructing with
`machineId = -1` succeeds in both modes (as the claim says), but the source
stores the machine id unclamped (`this.machineId = options.machineId!`), so
the two's-complement mask of `-1` to 10 bits packs the all-ones field
`1023`, and the machineId extracted from a generated identifier is `1023`,
not the `0` the claim (and the repository's own test suite) expects. -/
theorem C6_code_evaluation :
    mkQuark ⟨-1, none, none, false⟩ = Except.ok negMachine
      ∧ mkQuark ⟨-1, none, none, true⟩ = Except.ok negMachine
      ∧ negMachine.machineId = -1
      ∧ extractMachineId negMachine (generate negMachine frozenT).1 = 1023
      ∧ (extract negMachine (generate negMachine frozenT).1).machineId = 1023
      ∧ (1023 : Int) ≠ 0 := by decide

/-- **C7.**  Construction fails (with a typed error, returning no codec)
exactly when strict mode is on and either the supplied epoch is negative or
the clamped bit widths sum to more than 22; in lenient mode construction
always succeeds, a negative epoch is healed to 0, and a bit-budget overflow
resets both widths to the defaults `(10, 12)` while an in-budget request is
kept as given. -/
theorem C7_construction_validation (o : QuarkOptions) :
    ((∃ e, mkQuark o = Except.error e)
        ↔ o.throwErr = true
            ∧ (o.epoch.getD 0 < 0
                ∨ effectiveMachineIdBits o + effectiveSequenceBits o > 22))
      ∧ (o.throwErr = false →
          mkQuark o
            = Except.ok
                ⟨o.machineId, -1, 0, max (o.epoch.getD 0) 0,
                  if effectiveMachineIdBits o + effectiveSequenceBits o > 22
                  then ⟨10, 12⟩
                  else ⟨effectiveMachineIdBits o, effectiveSequenceBits o⟩⟩) := by
  by_cases he : o.epoch.getD 0 < 0 <;>
    by_cases ht : o.throwErr <;>
      by_cases hbud : effectiveMachineIdBits o + effectiveSequenceBits o > 22 <;>
        simp [mkQuark, he, ht, hbud, Quark.mk.injEq] <;>
          omega

/-- **C7, witness**: the lenient negative-epoch configuration from the
spec's test list, `new Quark({machineId: 1, epoch: -1000})`, constructs a
codec whose epoch healed to `max (-1000) 0 = 0` and whose widths are the
defaults. -/
theorem C7_construction_validation_witness :
    mkQuark ⟨1, some (-1000), none, false⟩
      = Except.ok
          ⟨(⟨1, some (-1000), none, false⟩ : QuarkOptions).machineId, -1, 0,
            max ((⟨1, some (-1000), none, false⟩ : QuarkOptions).epoch.getD 0) 0,
            if effectiveMachineIdBits ⟨1, some (-1000), none, false⟩
                + effectiveSequenceBits ⟨1, some (-1000), none, false⟩ > 22
            then ⟨10, 12⟩
            else ⟨effectiveMachineIdBits ⟨1, some (-1000), none, false⟩,
              effectiveSequenceBits ⟨1, some (-1000), none, false⟩⟩⟩ :=
  (C7_construction_validation ⟨1, some (-1000), none, false⟩).2 rfl

/-- **C8.**  For every valid configuration (widths summing to at most 22)
and every in-range machine id `0 ≤ mid < 2^machineIdBits`, whatever the
generator state and time reading, the machineId field of
`extract(generate())` equals `mid mod 2^machineIdBits`, which is `mid`
itself. -/
theorem C8_machineId_roundtrip (mid lt sq e now : Int) (mB sB : Nat)
    (hb : mB + sB ≤ 22) (h0 : 0 ≤ mid) (h1 : mid < 2 ^ mB) :
    (extract ⟨mid, lt, sq, e, ⟨mB, sB⟩⟩
        (generate ⟨mid, lt, sq, e, ⟨mB, sB⟩⟩ now).1).machineId = mid % 2 ^ mB
      ∧ (extract ⟨mid, lt, sq, e, ⟨mB, sB⟩⟩
          (generate ⟨mid, lt, sq, e, ⟨mB, sB⟩⟩ now).1).machineId = mid := by
  have h := (extract_of_generate ⟨mid, lt, sq, e, ⟨mB, sB⟩⟩
    ⟨mid, lt, sq, e, ⟨mB, sB⟩⟩ now hb rfl rfl).2.1
  have hproj : (extract ⟨mid, lt, sq, e, ⟨mB, sB⟩⟩
      (generate ⟨mid, lt, sq, e, ⟨mB, sB⟩⟩ now).1).machineId
      = extractMachineId ⟨mid, lt, sq, e, ⟨mB, sB⟩⟩
          (generate ⟨mid, lt, sq, e, ⟨mB, sB⟩⟩ now).1 := rfl
  have hm : machineIdField ⟨mid, lt, sq, e, ⟨mB, sB⟩⟩ = mid % 2 ^ mB :=
    extractNumRange_zero mid mB
  constructor
  · rw [hproj, h, hm]
  · rw [hproj, h, hm, Int.emod_eq_of_lt h0 h1]

/-- **C8, witness** at a concrete in-range machine id. -/
theorem C8_machineId_roundtrip_witness :
    ((10 : Nat) + 12 ≤ 22 ∧ (0 : Int) ≤ 5 ∧ (5 : Int) < 2 ^ 10)
      ∧ ((extract ⟨5, -1, 0, 0, ⟨10, 12⟩⟩
            (generate ⟨5, -1, 0, 0, ⟨10, 12⟩⟩ 100).1).machineId = 5 % 2 ^ 10
          ∧ (extract ⟨5, -1, 0, 0, ⟨10, 12⟩⟩
              (generate ⟨5, -1, 0, 0, ⟨10, 12⟩⟩ 100).1).machineId = 5) :=
  ⟨⟨by decide, by decide, by decide⟩,
    C8_machineId_roundtrip 5 (-1) 0 0 100 10 12 (by decide) (by decide)
      (by decide)⟩

/-- **C9.**  The `extract*` family is pure and deterministic: each is a
function of the identifier argument and the immutable configuration
(`epoch`, `allocations`) only — two codec states agreeing on those decode
every identifier identically, whatever their mutable `lastTimestamp` and
`sequence` are (the embedding returns no updated state because the methods
assign nothing). -/
theorem C9_extract_pure (s t : Quark) (q : Int)
    (he : s.epoch = t.epoch) (ha : s.allocations = t.allocations) :
    extract s q = extract t q
      ∧ extractTimestamp s q = extractTimestamp t q
      ∧ extractDate s q = extractDate t q
      ∧ extractMachineId s q = extractMachineId t q
      ∧ extractSequence s q = extractSequence t q := by
  unfold extract extractDate extractTimestamp extractMachineId extractSequence
  rw [he, ha]
  exact ⟨rfl, rfl, rfl, rfl, rfl⟩

/-- **C9, witness**: two states sharing epoch and allocations but differing
in machine id, `lastTimestamp` and `sequence` decode `12345` identically. -/
theorem C9_extract_pure_witness :
    (default1.epoch = (⟨5, 77, 3, 0, ⟨10, 12⟩⟩ : Quark).epoch
        ∧ default1.allocations = (⟨5, 77, 3, 0, ⟨10, 12⟩⟩ : Quark).allocations)
      ∧ (extract default1 12345 = extract ⟨5, 77, 3, 0, ⟨10, 12⟩⟩ 12345
          ∧ extractTimestamp default1 12345
            = extractTimestamp ⟨5, 77, 3, 0, ⟨10, 12⟩⟩ 12345
          ∧ extractDate default1 12345
            = extractDate ⟨5, 77, 3, 0, ⟨10, 12⟩⟩ 12345
          ∧ extractMachineId default1 12345
            = extractMachineId ⟨5, 77, 3, 0, ⟨10, 12⟩⟩ 12345
          ∧ extractSequence default1 12345
            = extractSequence ⟨5, 77, 3, 0, ⟨10, 12⟩⟩ 12345) :=
  ⟨⟨by decide, by decide⟩,
    C9_extract_pure default1 ⟨5, 77, 3, 0, ⟨10, 12⟩⟩ 12345 (by decide)
      (by decide)⟩

/-- **C10.**  For every codec whose widths sum to at most 22 — including
strictly less than 22 — decoding a fresh identifier on the same instance is
exact: `extractTimestamp` returns the stored `lastTimestamp + epoch` and
`extractSequence` returns the stored sequence, because `generate` and the
extractors share the same fixed 22-bit timestamp shift and the low fields
always fit below bit 22. -/
theorem C10_same_codec_roundtrip (self : Quark) (now : Int)
    (hb : self.allocations.machineId + self.allocations.sequence ≤ 22) :
    extractTimestamp (generate self now).2 (generate self now).1
        = (generate self now).2.lastTimestamp + self.epoch
      ∧ extractSequence (generate self now).2 (generate self now).1
        = (generate self now).2.sequence := by
  have h := extract_of_generate self (generate self now).2 now hb
    (by rw [generate_snd]) (by rw [generate_snd])
  refine ⟨?_, ?_⟩
  · rw [h.1, generate_snd]
  · rw [h.2.2, generate_snd]

/-- **C10, witness** at the `(5, 10)` codec, whose widths sum to 15 < 22. -/
theorem C10_same_codec_roundtrip_witness :
    (narrow510.allocations.machineId + narrow510.allocations.sequence ≤ 22)
      ∧ (extractTimestamp (generate narrow510 5).2 (generate narrow510 5).1
            = (generate narrow510 5).2.lastTimestamp + narrow510.epoch
          ∧ extractSequence (generate narrow510 5).2 (generate narrow510 5).1
            = (generate narrow510 5).2.sequence) :=
  ⟨by decide, C10_same_codec_roundtrip narrow510 5 (by decide)⟩

end Quark
